import Mathlib

/-!
# Talent Match Intelligence System — verification of the scoring core

Shallow embedding of the scoring core of `Step 3/app.py`:

* `compute_baseline_from_benchmarks` — per-pillar mean / sample standard
  deviation (pandas `groupby(...).agg([mean, std]).round(2)`, `ddof = 1`)
  over the benchmark employees, with the degenerate psychometric fallback
  `mean = 0, std = 1`;
* `calculate_tv_match_vectorized` — the distance-to-match transform
  `max(0, 100 - |v - mean| / std * 10)` with the NaN / zero-std guard;
* `compute_match_scores_optimized` — per-employee competency and
  psychometric sub-scores, constant behavioral / contextual sub-scores,
  weighted final score, and the descending sort of the result table.

Embedding conventions:

* Python floats are idealised as exact rationals (`ℚ`); a float that can be
  NaN (a pandas missing value) is `Option ℚ`, with `none` standing for NaN.
* Employee ids and pillar codes are opaque strings in the source; only
  decidable equality (and, for the `groupby` key order, an arbitrary linear
  order) is ever used, so they are modelled as `ℕ`.
* `pandas.Series.std` uses `ddof = 1` and yields NaN for fewer than two
  (non-NaN) observations; `mean` skips NaN and yields NaN on an empty set.
* `round(x, 2)` (Python and numpy alike) is round-half-to-even at two
  decimal places, modelled exactly by `roundHalfEven (100 * x) / 100`.
* The true standard deviation is irrational, but the code only ever stores
  it rounded to two decimals; `round2sqrt v` computes that rounded value
  exactly, using `100 * Real.sqrt v = Real.sqrt (10000 * v)` and an exact
  integer square root (`isqrt`, a fuel-driven Newton iteration proved equal
  to `Nat.sqrt`).
* Streamlit error reports (`st.error`) are modelled as a structured
  `Failure` value carried in the output next to the result list.
* `DataFrame.sort_values(..., ascending=False)` goes through pandas
  `nargsort`, which reverses the rows, takes a numpy `argsort`, and
  reverses the resulting indexer.  The default argsort kind is the numpy
  introsort, which is documented as not stable: the relative order of rows
  with equal keys is unspecified (it depends on array size and numpy
  internals).  A deterministic embedding must still pick some order, and
  `sortDesc` uses an insertion sort; consequently only properties that are
  invariant under the tie order — which rows appear, with which field
  values, and that the keys are non-increasing — are asserted of the
  program, never the tie order itself.
-/

/- ## Exact integer square root (kernel-computable) -/

/-- Fuel-driven Newton iteration, identical to the recursion inside
`Nat.sqrt` but structurally recursive so that the kernel can evaluate it. -/
def isqrtAux : Nat → Nat → Nat → Nat
  | 0, _, g => g
  | f + 1, n, g =>
      let next := (g + n / g) / 2
      if next < g then isqrtAux f n next else g

/-- Integer square root (floor of the real square root), computable by the
kernel; proved equal to `Nat.sqrt` below. -/
def isqrt (n : Nat) : Nat :=
  if n ≤ 1 then n else isqrtAux n n (n / 2)

/- ## Rounding -/

/-- Round-half-to-even to the nearest integer: the rounding used by Python
`round` and by numpy/pandas `round`. -/
def roundHalfEven (q : ℚ) : ℤ :=
  let n := ⌊q⌋
  if q - n < 1 / 2 then n
  else if 1 / 2 < q - n then n + 1
  else if n % 2 = 0 then n else n + 1

/-- Round to two decimal places (half-to-even), i.e. `round(q, 2)`. -/
def round2 (q : ℚ) : ℚ := (roundHalfEven (100 * q) : ℚ) / 100

/-- Round-half-to-even of the real square root of a nonnegative rational,
computed exactly: `n` is the floor of the root, and comparing `4 * m`
against `(2 * n + 1) ^ 2` decides which side of `n + 1/2` the root is on. -/
def roundSqrt (m : ℚ) : ℤ :=
  let n : ℤ := isqrt (Int.toNat ⌊m⌋)
  if 4 * m < 4 * n ^ 2 + 4 * n + 1 then n
  else if 4 * n ^ 2 + 4 * n + 1 < 4 * m then n + 1
  else if n % 2 = 0 then n else n + 1

/-- The square root of `v`, rounded to two decimal places: this is the only
form in which the code ever stores a standard deviation
(`round(sqrt(v), 2) = roundHalfEven(sqrt(10000 * v)) / 100`). -/
def round2sqrt (v : ℚ) : ℚ := (roundSqrt (10000 * v) : ℚ) / 100

/- ## Statistics -/

/-- Arithmetic mean of a list of values (`pandas` / `numpy` `mean`). -/
def listMean (l : List ℚ) : ℚ := l.sum / l.length

/-- Sample variance with `ddof = 1`, the square of `pandas.Series.std`;
only ever used on lists of length at least two. -/
def sampleVar (l : List ℚ) : ℚ :=
  (l.map (fun x => (x - listMean l) ^ 2)).sum / ((l.length : ℚ) - 1)

/- ## Data model -/

/-- One row of the `performance_yearly` table. -/
structure PerfRow where
  employee_id : ℕ
  year : ℤ
deriving DecidableEq, Repr

/-- One row of the `competencies_yearly` table. -/
structure CompRow where
  employee_id : ℕ
  pillar_code : ℕ
  score : ℚ
  year : ℤ
deriving DecidableEq, Repr

/-- One row of the `profiles_psych` table; each test value can be NaN. -/
structure PsychRow where
  employee_id : ℕ
  pauli : Option ℚ
  gtq : Option ℚ
  iq : Option ℚ
deriving DecidableEq, Repr

/-- Baseline statistics of one competency pillar: the group is nonempty so
the mean is always defined, while `std` (with `ddof = 1`) is NaN for a
single-record group. Both are stored rounded to two decimals. -/
structure CompStats where
  mean : ℚ
  std : Option ℚ
deriving DecidableEq, Repr

/-- Baseline statistics of one psychometric dimension; both can be NaN. -/
structure DimStats where
  mean : Option ℚ
  std : Option ℚ
deriving DecidableEq, Repr

/-- The baseline produced by `compute_baseline_from_benchmarks`:
per-pillar competency statistics plus statistics for PAULI, GTQ and IQ. -/
structure Baseline where
  competencies : List (ℕ × CompStats)
  pauliStats : DimStats
  gtqStats : DimStats
  iqStats : DimStats
deriving DecidableEq, Repr

/-- One output row of the match scorer. -/
structure MatchResult where
  employee_id : ℕ
  competency_score : ℚ
  psychometric_score : ℚ
  behavioral_score : ℚ
  contextual_score : ℚ
  final_match_score : ℚ
deriving DecidableEq, Repr

/-- Fatal data-unavailability conditions reported via `st.error`. -/
inductive Failure where
  /-- The benchmark set has no competency rows (baseline builder). -/
  | noCompetencyData : Failure
  /-- The performance roster for the scoring year is empty (scorer). -/
  | noEmployeesFound : Failure
deriving DecidableEq, Repr

/-- Output of the match scorer: an optional fatal error plus the (possibly
empty) list of result rows. -/
structure ScorerOutput where
  error : Option Failure
  results : List MatchResult
deriving DecidableEq, Repr

/- ## The distance-to-match transform -/

/-- Embedding of `calculate_tv_match_vectorized`, per scalar value (the
function broadcasts elementwise over arrays; the claims are per value).
If the baseline mean or std is NaN, or the std is zero, the result is `0`;
otherwise it is `max(0, 100 - |v - mean| / std * 10)`. -/
def calculate_tv_match_vectorized (v : ℚ) (baseline_mean baseline_std : Option ℚ) : ℚ :=
  match baseline_mean, baseline_std with
  | some m, some s =>
      if s = 0 then 0
      else max 0 (100 - |v - m| / s * 10)
  | _, _ => 0

/- ## Baseline builder -/

/-- Competency statistics of one `groupby(pillar_code)` group, as stored
by the builder: mean and sample std (`ddof = 1`, NaN below two records),
both rounded to two decimals. -/
def pillarStats (scores : List ℚ) : CompStats :=
  { mean := round2 (listMean scores)
    std := if scores.length < 2 then none else some (round2sqrt (sampleVar scores)) }

/-- Mean of one psychometric column (`pandas` skips NaN entries and returns
NaN when no value remains), rounded to two decimals. -/
def colMean2 (col : List (Option ℚ)) : Option ℚ :=
  match col.filterMap id with
  | [] => none
  | vs => some (round2 (listMean vs))

/-- Sample std (`ddof = 1`) of one psychometric column over its non-NaN
entries, NaN below two values, rounded to two decimals. -/
def colStd2 (col : List (Option ℚ)) : Option ℚ :=
  let vs := col.filterMap id
  if vs.length < 2 then none else some (round2sqrt (sampleVar vs))

/-- Embedding of `compute_baseline_from_benchmarks`: filter the competency
table to year 2025 and the benchmark ids; fail when nothing remains; group
by pillar code (pandas sorts the group keys) and store rounded mean/std per
group; filter the psychometric table to the benchmark ids and store rounded
per-column mean/std, or the degenerate `mean = 0, std = 1` fallback when no
benchmark employee has a psychometric row. -/
def compute_baseline_from_benchmarks (selected_ids : List ℕ)
    (competencies_yearly : List CompRow) (profiles_psych : List PsychRow) :
    Option Baseline :=
  let comp_df := competencies_yearly.filter
    (fun r => decide (r.year = 2025 ∧ r.employee_id ∈ selected_ids))
  if comp_df = [] then none
  else
    let pillars := List.insertionSort (· ≤ ·) (comp_df.map (·.pillar_code)).dedup
    let baseline_comp := pillars.map (fun p =>
      (p, pillarStats ((comp_df.filter (fun r => decide (r.pillar_code = p))).map (·.score))))
    let psych_df := profiles_psych.filter (fun r => decide (r.employee_id ∈ selected_ids))
    if psych_df = [] then
      some { competencies := baseline_comp
             pauliStats := ⟨some 0, some 1⟩
             gtqStats := ⟨some 0, some 1⟩
             iqStats := ⟨some 0, some 1⟩ }
    else
      some { competencies := baseline_comp
             pauliStats := ⟨colMean2 (psych_df.map (·.pauli)), colStd2 (psych_df.map (·.pauli))⟩
             gtqStats := ⟨colMean2 (psych_df.map (·.gtq)), colStd2 (psych_df.map (·.gtq))⟩
             iqStats := ⟨colMean2 (psych_df.map (·.iq)), colStd2 (psych_df.map (·.iq))⟩ }

/- ## Match scorer -/

/-- Competency match of one baseline pillar for one employee: `none` when
the employee has no row for the pillar (the pillar is skipped), otherwise
the transform applied to the first matching row (`.values[0]`). -/
def pillarMatch (emp_comp : List CompRow) (ps : ℕ × CompStats) : Option ℚ :=
  match emp_comp.filter (fun r => decide (r.pillar_code = ps.1)) with
  | [] => none
  | r :: _ => some (calculate_tv_match_vectorized r.score (some ps.2.mean) ps.2.std)

/-- Contribution of one psychometric dimension: skipped when the value is
NaN, otherwise the transform times the fixed weight. -/
def psychContrib (val : Option ℚ) (stats : DimStats) (w : ℚ) : List ℚ :=
  match val with
  | none => []
  | some v => [calculate_tv_match_vectorized v stats.mean stats.std * w]

/-- Weighted psychometric contributions of one `profiles_psych` row, in the
loop order of the code: pauli (0.60), gtq (0.28), iq (0.12). -/
def psychContribs (r : PsychRow) (b : Baseline) : List ℚ :=
  psychContrib r.pauli b.pauliStats 0.60 ++
  psychContrib r.gtq b.gtqStats 0.28 ++
  psychContrib r.iq b.iqStats 0.12

/-- Per-employee body of the scoring loop of `compute_match_scores_optimized`. -/
def scoreEmployee (baseline : Baseline) (comp_df : List CompRow)
    (psych_df : List PsychRow) (emp_id : ℕ) : MatchResult :=
  let emp_comp := comp_df.filter (fun r => decide (r.employee_id = emp_id))
  let comp_scores := baseline.competencies.filterMap (pillarMatch emp_comp)
  let comp_score := if comp_scores = [] then 0 else round2 (listMean comp_scores)
  let psych_score :=
    if psych_df = [] then 0
    else
      match psych_df.filter (fun r => decide (r.employee_id = emp_id)) with
      | [] => 0
      | r :: _ =>
          let psych_scores := psychContribs r baseline
          if psych_scores = [] then 0 else round2 psych_scores.sum
  let behav_score : ℚ := 75
  let context_score : ℚ := 75
  { employee_id := emp_id
    competency_score := comp_score
    psychometric_score := psych_score
    behavioral_score := behav_score
    contextual_score := context_score
    final_match_score :=
      round2 (comp_score * 0.50 + psych_score * 0.25 + behav_score * 0.20 + context_score * 0.05) }

/-- Ascending comparison on the final match score, the sort key of
`sort_values(final_match_score, ascending=False)`. -/
def finalLe (a b : MatchResult) : Prop := a.final_match_score ≤ b.final_match_score

instance : DecidableRel finalLe := fun _ _ => inferInstanceAs (Decidable (_ ≤ _))

instance : IsTotal MatchResult finalLe := ⟨fun _ _ => le_total _ _⟩

instance : IsTrans MatchResult finalLe := ⟨fun _ _ _ => le_trans⟩

/-- Embedding of the pandas descending sort: `nargsort` reverses the rows,
applies an ascending argsort, and reverses the resulting indexer.  The
argsort here is an insertion sort, standing in for the numpy introsort
whose tie order is unspecified (see the header): every theorem stated
about the scorer output is invariant under the order of equal keys. -/
def sortDesc (l : List MatchResult) : List MatchResult :=
  (List.insertionSort finalLe l.reverse).reverse

/-- Embedding of `compute_match_scores_optimized`: the roster is the
year-filtered performance table; an empty roster is the fatal
`noEmployeesFound` condition with no results; otherwise every roster
employee is scored against the year-filtered competency table and the full
psychometric table, and the rows are sorted descending by final score. -/
def compute_match_scores_optimized (baseline : Baseline)
    (performance_yearly : List PerfRow) (competencies_yearly : List CompRow)
    (profiles_psych : List PsychRow) (year : ℤ) : ScorerOutput :=
  let all_emp_ids := (performance_yearly.filter (fun r => decide (r.year = year))).map
    (·.employee_id)
  if all_emp_ids = [] then { error := some Failure.noEmployeesFound, results := [] }
  else
    let comp_df := competencies_yearly.filter (fun r => decide (r.year = year))
    let results := all_emp_ids.map (scoreEmployee baseline comp_df profiles_psych)
    { error := none, results := sortDesc results }

/- ## Spec-side formulations used by the theorems -/

/-- The benchmark competency rows: year 2025, employee in the selected set
(spec, section 4.1). -/
def benchCompRows (selected_ids : List ℕ) (competencies_yearly : List CompRow) : List CompRow :=
  competencies_yearly.filter (fun r => decide (r.year = 2025 ∧ r.employee_id ∈ selected_ids))

/-- The scores of one pillar inside a set of competency rows. -/
def pillarScores (rows : List CompRow) (p : ℕ) : List ℚ :=
  (rows.filter (fun r => decide (r.pillar_code = p))).map (·.score)

/-- The baseline pillars for which an employee has at least one row
(spec, section 4.3 step 1: all other pillars are skipped entirely). -/
def pillarsWithScore (b : Baseline) (emp_comp : List CompRow) : List (ℕ × CompStats) :=
  b.competencies.filter
    (fun ps => decide (emp_comp.filter (fun r => decide (r.pillar_code = ps.1)) ≠ []))

/-- The match value of a pillar the employee does have a row for: the
transform applied to the first matching row. -/
def matchedPillarValue (emp_comp : List CompRow) (ps : ℕ × CompStats) : ℚ :=
  calculate_tv_match_vectorized
    ((emp_comp.filter (fun r => decide (r.pillar_code = ps.1))).head?.elim 0 (·.score))
    (some ps.2.mean) ps.2.std

/-- Weighted psychometric sum of one row, written as the spec states it:
each dimension contributes its transform times its fixed weight, a NaN
dimension contributes nothing, and nothing is renormalized. -/
def psychWeightedSum (r : PsychRow) (b : Baseline) : ℚ :=
  r.pauli.elim 0 (fun v => calculate_tv_match_vectorized v b.pauliStats.mean b.pauliStats.std * 0.60) +
  r.gtq.elim 0 (fun v => calculate_tv_match_vectorized v b.gtqStats.mean b.gtqStats.std * 0.28) +
  r.iq.elim 0 (fun v => calculate_tv_match_vectorized v b.iqStats.mean b.iqStats.std * 0.12)

/-- Standard deviations stored in a baseline are never negative; the
builder guarantees this, and the `[0, 100]` range of the transform
depends on it. -/
def Baseline.NonnegStd (b : Baseline) : Prop :=
  (∀ ps ∈ b.competencies, ∀ s, ps.2.std = some s → 0 ≤ s) ∧
  (∀ s, b.pauliStats.std = some s → 0 ≤ s) ∧
  (∀ s, b.gtqStats.std = some s → 0 ≤ s) ∧
  (∀ s, b.iqStats.std = some s → 0 ≤ s)

/- ## Concrete data for the worked examples -/

/-- Benchmark competency table of the worked example of the spec: two
benchmark employees with scores 80 and 90 on a single pillar. -/
def benchCompTable : List CompRow :=
  [{ employee_id := 1, pillar_code := 10, score := 80, year := 2025 },
   { employee_id := 2, pillar_code := 10, score := 90, year := 2025 }]

/-- The baseline the builder produces from `benchCompTable` with no
psychometric data: mean 85, sample std 7.07, degenerate psych fallback. -/
def benchBaseline : Baseline :=
  { competencies := [(10, { mean := 85, std := some (707 / 100) })]
    pauliStats := ⟨some 0, some 1⟩
    gtqStats := ⟨some 0, some 1⟩
    iqStats := ⟨some 0, some 1⟩ }

/-- A one-employee roster whose employee appears in neither the competency
nor the psychometric table. -/
def soloRoster : List PerfRow := [{ employee_id := 7, year := 2025 }]

/-- The match result of an employee absent from both data tables. -/
def soloResult : MatchResult :=
  { employee_id := 7, competency_score := 0, psychometric_score := 0
    behavioral_score := 75, contextual_score := 75, final_match_score := 75 / 4 }

/- ## Lemmas: integer square root -/

theorem isqrtAux_eq_iter (f n g : Nat) (h : g ≤ f) : isqrtAux f n g = Nat.sqrt.iter n g := by
  induction f generalizing g with
  | zero =>
      interval_cases g
      unfold Nat.sqrt.iter
      simp [isqrtAux]
  | succ f ih =>
      unfold Nat.sqrt.iter
      simp only [isqrtAux]
      split
      · next hlt => exact ih _ (by omega)
      · next hge => rfl

theorem isqrt_eq_sqrt (n : Nat) : isqrt n = Nat.sqrt n := by
  unfold isqrt Nat.sqrt
  split
  · rfl
  · exact isqrtAux_eq_iter n n (n / 2) (Nat.div_le_self n 2)

/- ## Lemmas: rounding -/

theorem roundHalfEven_eq_floor_or_succ (q : ℚ) :
    roundHalfEven q = ⌊q⌋ ∨ (roundHalfEven q = ⌊q⌋ + 1 ∧ (⌊q⌋ : ℚ) + 1 / 2 ≤ q) := by
  unfold roundHalfEven
  dsimp only
  split
  · exact Or.inl rfl
  · next h1 =>
      have hq : (⌊q⌋ : ℚ) + 1 / 2 ≤ q := by
        push_neg at h1
        linarith
      split
      · exact Or.inr ⟨rfl, hq⟩
      · split
        · exact Or.inl rfl
        · exact Or.inr ⟨rfl, hq⟩

theorem le_roundHalfEven (n : ℤ) (q : ℚ) (h : (n : ℚ) ≤ q) : n ≤ roundHalfEven q := by
  have hf : n ≤ ⌊q⌋ := Int.le_floor.mpr h
  rcases roundHalfEven_eq_floor_or_succ q with h1 | ⟨h1, _⟩ <;> omega

theorem roundHalfEven_le (n : ℤ) (q : ℚ) (h : q ≤ (n : ℚ)) : roundHalfEven q ≤ n := by
  have hf : ⌊q⌋ ≤ n := by
    have := Int.floor_le_floor h
    simpa using this
  rcases roundHalfEven_eq_floor_or_succ q with h1 | ⟨h1, h2⟩
  · omega
  · have hlt : (⌊q⌋ : ℚ) < (n : ℚ) := by linarith
    have : ⌊q⌋ < n := by exact_mod_cast hlt
    omega

theorem roundHalfEven_eq_of_lt_half (n : ℤ) (q : ℚ) (h1 : (n : ℚ) ≤ q)
    (h2 : q < (n : ℚ) + 1 / 2) : roundHalfEven q = n := by
  have hfl : ⌊q⌋ = n := by
    rw [Int.floor_eq_iff]
    constructor
    · exact h1
    · linarith
  unfold roundHalfEven
  dsimp only
  rw [hfl]
  rw [if_pos (by linarith)]

theorem roundHalfEven_eq_of_half_lt (n : ℤ) (q : ℚ) (h1 : (n : ℚ) + 1 / 2 < q)
    (h2 : q < (n : ℚ) + 1) : roundHalfEven q = n + 1 := by
  have hfl : ⌊q⌋ = n := by
    rw [Int.floor_eq_iff]
    constructor
    · linarith
    · linarith
  unfold roundHalfEven
  dsimp only
  rw [hfl]
  rw [if_neg (by linarith), if_pos (by linarith)]

theorem roundHalfEven_intCast (n : ℤ) : roundHalfEven (n : ℚ) = n :=
  roundHalfEven_eq_of_lt_half n _ le_rfl (by linarith)

theorem round2_eval (a : ℚ) (n : ℤ) (h : 100 * a = (n : ℚ)) : round2 a = (n : ℚ) / 100 := by
  unfold round2
  rw [h, roundHalfEven_intCast]

theorem round2_zero : round2 0 = 0 := by
  rw [round2_eval 0 0 (by norm_num)]
  norm_num

theorem round2_le (m : ℤ) (q : ℚ) (h : 100 * q ≤ (m : ℚ)) : round2 q ≤ (m : ℚ) / 100 := by
  unfold round2
  have := roundHalfEven_le m (100 * q) h
  have hle : ((roundHalfEven (100 * q) : ℚ)) ≤ (m : ℚ) := by exact_mod_cast this
  linarith

theorem le_round2 (m : ℤ) (q : ℚ) (h : (m : ℚ) ≤ 100 * q) : (m : ℚ) / 100 ≤ round2 q := by
  unfold round2
  have := le_roundHalfEven m (100 * q) h
  have hle : (m : ℚ) ≤ ((roundHalfEven (100 * q) : ℚ)) := by exact_mod_cast this
  linarith

theorem roundSqrt_nonneg (m : ℚ) : 0 ≤ roundSqrt m := by
  unfold roundSqrt
  dsimp only
  have h : (0 : ℤ) ≤ isqrt (Int.toNat ⌊m⌋) := Int.ofNat_nonneg _
  split
  · exact h
  · split
    · omega
    · split <;> omega

theorem round2sqrt_nonneg (v : ℚ) : 0 ≤ round2sqrt v := by
  unfold round2sqrt
  have := roundSqrt_nonneg (10000 * v)
  positivity

/- ## Lemmas: the distance-to-match transform -/

theorem tv_match_nonneg (v : ℚ) (bm bs : Option ℚ) :
    0 ≤ calculate_tv_match_vectorized v bm bs := by
  unfold calculate_tv_match_vectorized
  match bm, bs with
  | none, _ => simp
  | some m, none => simp
  | some m, some s =>
      dsimp only
      split
      · exact le_rfl
      · exact le_max_left _ _

theorem tv_match_le_100 (v : ℚ) (bm : Option ℚ) (bs : Option ℚ)
    (h : ∀ s, bs = some s → 0 ≤ s) :
    calculate_tv_match_vectorized v bm bs ≤ 100 := by
  unfold calculate_tv_match_vectorized
  match bm, bs with
  | none, _ => simp
  | some m, none => simp
  | some m, some s =>
      dsimp only
      split
      · norm_num
      · next hs =>
          have hs0 : 0 ≤ s := h s rfl
          have hspos : 0 < s := lt_of_le_of_ne hs0 (Ne.symm hs)
          have hd : 0 ≤ |v - m| / s * 10 := by positivity
          have : (100 : ℚ) - |v - m| / s * 10 ≤ 100 := by linarith
          exact max_le (by norm_num) this

/- ## Lemmas: means and sums -/

theorem listMean_le (l : List ℚ) (b : ℚ) (hne : l ≠ []) (h : ∀ x ∈ l, x ≤ b) :
    listMean l ≤ b := by
  unfold listMean
  have hlen : 0 < (l.length : ℚ) := by
    have : 0 < l.length := List.length_pos.mpr hne
    exact_mod_cast this
  have hsum : l.sum ≤ (l.length : ℚ) * b := by
    have := List.sum_le_card_nsmul l b h
    rwa [nsmul_eq_mul] at this
  rw [div_le_iff₀ hlen]
  linarith

theorem le_listMean (l : List ℚ) (a : ℚ) (hne : l ≠ []) (h : ∀ x ∈ l, a ≤ x) :
    a ≤ listMean l := by
  unfold listMean
  have hlen : 0 < (l.length : ℚ) := by
    have : 0 < l.length := List.length_pos.mpr hne
    exact_mod_cast this
  have hsum : (l.length : ℚ) * a ≤ l.sum := by
    have := List.card_nsmul_le_sum l a h
    rwa [nsmul_eq_mul] at this
  rw [le_div_iff₀ hlen]
  linarith

/- ## Claim C1 -/

/-- C1: with a defined baseline mean and a positive, defined baseline
standard deviation, the distance-to-match transform returns
`max(0, 100 - |v - mean| / std * 10)`; the result always lies in
`[0, 100]` and equals exactly `100` when the value hits the mean. -/
theorem tv_match_formula_of_pos_std (v m s : ℚ) (hs : 0 < s) :
    calculate_tv_match_vectorized v (some m) (some s) = max 0 (100 - |v - m| / s * 10) ∧
    0 ≤ calculate_tv_match_vectorized v (some m) (some s) ∧
    calculate_tv_match_vectorized v (some m) (some s) ≤ 100 ∧
    (v = m → calculate_tv_match_vectorized v (some m) (some s) = 100) := by
  have hform : calculate_tv_match_vectorized v (some m) (some s) =
      max 0 (100 - |v - m| / s * 10) := by
    show (if s = 0 then 0 else max 0 (100 - |v - m| / s * 10)) = _
    rw [if_neg (ne_of_gt hs)]
  refine ⟨hform, tv_match_nonneg _ _ _, ?_, ?_⟩
  · exact tv_match_le_100 _ _ _ (fun s' h => by injection h with h; exact h ▸ hs.le)
  · intro hvm
    rw [hform, hvm]
    simp

/-- Witness for C1, at the worked example of the spec: value 120 against
baseline mean 85 and std 7.07. -/
theorem tv_match_formula_of_pos_std_witness :
    calculate_tv_match_vectorized 120 (some 85) (some (707 / 100)) =
        max 0 (100 - |(120 : ℚ) - 85| / (707 / 100) * 10) ∧
    0 ≤ calculate_tv_match_vectorized 120 (some 85) (some (707 / 100)) ∧
    calculate_tv_match_vectorized 120 (some 85) (some (707 / 100)) ≤ 100 ∧
    ((120 : ℚ) = 85 →
      calculate_tv_match_vectorized 120 (some 85) (some (707 / 100)) = 100) :=
  tv_match_formula_of_pos_std 120 85 (707 / 100) (by norm_num)

/- ## Claim C2 -/

/-- C2: when the baseline mean or std is undefined (NaN), or the std is
zero, the transform returns the plain number 0 — the division by the std
is guarded and never performed in this case. -/
theorem tv_match_zero_of_degenerate (v : ℚ) (bm bs : Option ℚ)
    (h : bm = none ∨ bs = none ∨ bs = some 0) :
    calculate_tv_match_vectorized v bm bs = 0 := by
  rcases h with h | h | h
  · subst h
    cases bs <;> rfl
  · subst h
    cases bm <;> rfl
  · subst h
    cases bm with
    | none => rfl
    | some m =>
        show (if (0 : ℚ) = 0 then 0 else max 0 (100 - |v - m| / 0 * 10)) = 0
        rw [if_pos rfl]

/-- Witness for C2: a zero standard deviation yields the score 0. -/
theorem tv_match_zero_of_degenerate_witness :
    calculate_tv_match_vectorized 50 (some 10) (some 0) = 0 :=
  tv_match_zero_of_degenerate 50 (some 10) (some 0) (Or.inr (Or.inr rfl))

/- ## Concrete evaluations for the worked baseline example -/

theorem isqrt_500000 : isqrt 500000 = 707 := by decide

theorem roundSqrt_500000 : roundSqrt 500000 = 707 := by
  unfold roundSqrt
  dsimp only
  rw [show ⌊(500000 : ℚ)⌋ = 500000 from by
        rw [show (500000 : ℚ) = ((500000 : ℤ) : ℚ) by norm_num]
        exact Int.floor_intCast _]
  rw [show Int.toNat 500000 = 500000 from rfl]
  rw [isqrt_500000]
  rw [if_pos (by push_cast; norm_num)]
  norm_num

theorem round2sqrt_50 : round2sqrt 50 = 707 / 100 := by
  unfold round2sqrt
  rw [show (10000 : ℚ) * 50 = 500000 by norm_num, roundSqrt_500000]
  norm_num

theorem pillarStats_8090 : pillarStats [(80 : ℚ), 90] = ⟨85, some (707 / 100)⟩ := by
  unfold pillarStats
  rw [show listMean [(80 : ℚ), 90] = 85 from by norm_num [listMean],
      round2_eval 85 8500 (by norm_num),
      show sampleVar [(80 : ℚ), 90] = 50 from by norm_num [sampleVar, listMean]]
  rw [if_neg (by norm_num)]
  rw [round2sqrt_50]
  norm_num [CompStats.mk.injEq]

theorem benchBaseline_eval :
    compute_baseline_from_benchmarks [1, 2] benchCompTable [] = some benchBaseline := by
  unfold compute_baseline_from_benchmarks
  dsimp only
  rw [show benchCompTable.filter
        (fun r => decide (r.year = 2025 ∧ r.employee_id ∈ [1, 2])) = benchCompTable from by
      decide]
  rw [if_neg (by decide : ¬(benchCompTable = []))]
  rw [show List.insertionSort (· ≤ ·) ((benchCompTable.map (·.pillar_code)).dedup) = [10] from by
      decide]
  rw [List.filter_nil]
  rw [if_pos rfl]
  rw [List.map_cons, List.map_nil]
  rw [show (benchCompTable.filter (fun r => decide (r.pillar_code = 10))).map (·.score) =
        [(80 : ℚ), 90] from by decide]
  rw [pillarStats_8090]
  rfl

/- ## Lemmas: shape of the builder output -/

theorem baseline_competencies_eq (ids : List ℕ) (ct : List CompRow) (pt : List PsychRow)
    (b : Baseline) (h : compute_baseline_from_benchmarks ids ct pt = some b) :
    b.competencies =
      (List.insertionSort (· ≤ ·) ((benchCompRows ids ct).map (·.pillar_code)).dedup).map
        (fun p => (p, pillarStats (pillarScores (benchCompRows ids ct) p))) := by
  unfold compute_baseline_from_benchmarks at h
  dsimp only at h
  split at h
  · exact absurd h (by simp)
  · split at h
    · rw [Option.some.injEq] at h
      subst h
      rfl
    · rw [Option.some.injEq] at h
      subst h
      rfl

theorem baseline_psych_fallback (ids : List ℕ) (ct : List CompRow) (pt : List PsychRow)
    (b : Baseline) (hpt : pt.filter (fun r => decide (r.employee_id ∈ ids)) = [])
    (h : compute_baseline_from_benchmarks ids ct pt = some b) :
    b.pauliStats = ⟨some 0, some 1⟩ ∧ b.gtqStats = ⟨some 0, some 1⟩ ∧
      b.iqStats = ⟨some 0, some 1⟩ := by
  unfold compute_baseline_from_benchmarks at h
  dsimp only at h
  rw [hpt] at h
  split at h
  · exact absurd h (by simp)
  · rw [if_pos rfl] at h
    rw [Option.some.injEq] at h
    subst h
    exact ⟨rfl, rfl, rfl⟩

/- ## Claim C3 -/

/-- C3: for every pillar, the stored baseline statistics are the mean and
the sample standard deviation (`ddof = 1`) of the benchmark scores for the
pillar, each rounded to two decimals (the std is NaN below two records);
in particular the benchmark scores [80, 90] yield mean 85 and std 7.07. -/
theorem baseline_pillar_mean_std :
    (∀ ids ct pt b, compute_baseline_from_benchmarks ids ct pt = some b →
        ∀ p st, (p, st) ∈ b.competencies →
          st.mean = round2 (listMean (pillarScores (benchCompRows ids ct) p)) ∧
          st.std = if (pillarScores (benchCompRows ids ct) p).length < 2 then none
                   else some (round2sqrt (sampleVar (pillarScores (benchCompRows ids ct) p)))) ∧
    compute_baseline_from_benchmarks [1, 2] benchCompTable [] = some benchBaseline := by
  constructor
  · intro ids ct pt b h p st hmem
    rw [baseline_competencies_eq ids ct pt b h] at hmem
    obtain ⟨a, -, heq⟩ := List.mem_map.mp hmem
    injection heq with ha hst
    subst ha
    subst hst
    exact ⟨rfl, rfl⟩
  · exact benchBaseline_eval

/-- Witness for C3: instantiating the per-pillar statement at the worked
example exhibits mean 85 and sample std 7.07 for the scores [80, 90]. -/
theorem baseline_pillar_mean_std_witness :
    (85 : ℚ) = round2 (listMean (pillarScores (benchCompRows [1, 2] benchCompTable) 10)) ∧
    some ((707 : ℚ) / 100) =
      (if (pillarScores (benchCompRows [1, 2] benchCompTable) 10).length < 2 then none
       else some (round2sqrt (sampleVar (pillarScores (benchCompRows [1, 2] benchCompTable) 10)))) :=
  baseline_pillar_mean_std.1 [1, 2] benchCompTable [] benchBaseline
    baseline_pillar_mean_std.2 10 ⟨85, some (707 / 100)⟩ (List.mem_cons_self _ _)

/- ## Claim C7 -/

/-- C7: when no psychometric record exists for any benchmark employee, the
builder substitutes mean 0 and std 1 for PAULI, GTQ and IQ, and on such a
dimension the transform never hits the zero-std guard and computes
`max(0, 100 - |v| * 10)` for every candidate value. -/
theorem psych_fallback_baseline (ids : List ℕ) (ct : List CompRow) (pt : List PsychRow)
    (b : Baseline) (hpt : pt.filter (fun r => decide (r.employee_id ∈ ids)) = [])
    (hb : compute_baseline_from_benchmarks ids ct pt = some b) :
    (b.pauliStats = ⟨some 0, some 1⟩ ∧ b.gtqStats = ⟨some 0, some 1⟩ ∧
      b.iqStats = ⟨some 0, some 1⟩) ∧
    ∀ v : ℚ, calculate_tv_match_vectorized v (some 0) (some 1) = max 0 (100 - |v| * 10) := by
  refine ⟨baseline_psych_fallback ids ct pt b hpt hb, ?_⟩
  intro v
  show (if (1 : ℚ) = 0 then 0 else max 0 (100 - |v - 0| / 1 * 10)) = _
  rw [if_neg (by norm_num)]
  norm_num

/-- Witness for C7: the worked example has no benchmark psychometric rows
and indeed receives the degenerate mean 0 / std 1 baseline. -/
theorem psych_fallback_baseline_witness :
    (benchBaseline.pauliStats = ⟨some 0, some 1⟩ ∧
      benchBaseline.gtqStats = ⟨some 0, some 1⟩ ∧
      benchBaseline.iqStats = ⟨some 0, some 1⟩) ∧
    ∀ v : ℚ, calculate_tv_match_vectorized v (some 0) (some 1) = max 0 (100 - |v| * 10) :=
  psych_fallback_baseline [1, 2] benchCompTable [] benchBaseline rfl benchBaseline_eval

/- ## Lemmas: shape of the scorer output -/

theorem scorer_results_eq (b : Baseline) (perf : List PerfRow) (ct : List CompRow)
    (pt : List PsychRow) (y : ℤ) :
    (compute_match_scores_optimized b perf ct pt y).results =
      sortDesc (((perf.filter (fun r => decide (r.year = y))).map (·.employee_id)).map
        (scoreEmployee b (ct.filter (fun r => decide (r.year = y))) pt)) := by
  unfold compute_match_scores_optimized
  dsimp only
  split
  · next hemp => rw [hemp]; rfl
  · rfl

theorem scoreEmployee_final (b : Baseline) (c : List CompRow) (p : List PsychRow) (e : ℕ) :
    (scoreEmployee b c p e).final_match_score =
      round2 ((scoreEmployee b c p e).competency_score * 0.50 +
        (scoreEmployee b c p e).psychometric_score * 0.25 + 75 * 0.20 + 75 * 0.05) := rfl

theorem scoreEmployee_behavioral (b : Baseline) (c : List CompRow) (p : List PsychRow) (e : ℕ) :
    (scoreEmployee b c p e).behavioral_score = 75 := rfl

theorem scoreEmployee_contextual (b : Baseline) (c : List CompRow) (p : List PsychRow) (e : ℕ) :
    (scoreEmployee b c p e).contextual_score = 75 := rfl

theorem scoreEmployee_id (b : Baseline) (c : List CompRow) (p : List PsychRow) (e : ℕ) :
    (scoreEmployee b c p e).employee_id = e := rfl

/- ## Claim C9 -/

/-- C9: an empty performance roster for the requested year makes the
scorer report the fatal no-employees-found condition and return an empty
result set (the embedding is a total function: no crash, no truncated
ranking). -/
theorem empty_roster_fails (b : Baseline) (perf : List PerfRow) (ct : List CompRow)
    (pt : List PsychRow) (y : ℤ) (h : perf.filter (fun r => decide (r.year = y)) = []) :
    compute_match_scores_optimized b perf ct pt y =
      { error := some Failure.noEmployeesFound, results := [] } := by
  unfold compute_match_scores_optimized
  dsimp only
  rw [h]
  rfl

/-- Witness for C9: a run over an empty roster. -/
theorem empty_roster_fails_witness :
    compute_match_scores_optimized benchBaseline [] [] [] 2025 =
      { error := some Failure.noEmployeesFound, results := [] } :=
  empty_roster_fails benchBaseline [] [] [] 2025 rfl

/- ## Lemmas: the competency sub-score -/

theorem filterMap_pillarMatch (ec : List CompRow) (L : List (ℕ × CompStats)) :
    L.filterMap (pillarMatch ec) =
      (L.filter (fun ps => decide (ec.filter (fun r => decide (r.pillar_code = ps.1)) ≠ []))).map
        (matchedPillarValue ec) := by
  induction L with
  | nil => rfl
  | cons ps L ih =>
      rw [List.filterMap_cons, List.filter_cons]
      cases hf : ec.filter (fun r => decide (r.pillar_code = ps.1)) with
      | nil =>
          rw [show pillarMatch ec ps = none from by unfold pillarMatch; rw [hf]]
          simp only [hf, ne_eq, not_true_eq_false, decide_False, Bool.false_eq_true, if_false]
          exact ih
      | cons r t =>
          rw [show pillarMatch ec ps =
                some (calculate_tv_match_vectorized r.score (some ps.2.mean) ps.2.std) from by
              unfold pillarMatch; rw [hf]]
          have hmv : matchedPillarValue ec ps =
              calculate_tv_match_vectorized r.score (some ps.2.mean) ps.2.std := by
            unfold matchedPillarValue
            rw [hf]
            rfl
          simp only [hf, ne_eq, reduceCtorEq, not_false_eq_true, decide_True, if_true,
            List.map_cons, hmv, ih]

/-- Closed form of the competency sub-score: mean over the matched
baseline pillars only, 0 when no pillar matches. -/
theorem competency_score_eq (b : Baseline) (c : List CompRow)
    (p : List PsychRow) (e : ℕ) :
    (scoreEmployee b c p e).competency_score =
      if pillarsWithScore b (c.filter (fun r => decide (r.employee_id = e))) = [] then 0
      else
        round2 (listMean
          ((pillarsWithScore b (c.filter (fun r => decide (r.employee_id = e)))).map
            (matchedPillarValue (c.filter (fun r => decide (r.employee_id = e)))))) := by
  have key : (scoreEmployee b c p e).competency_score =
      if (pillarsWithScore b (c.filter (fun r => decide (r.employee_id = e)))).map
          (matchedPillarValue (c.filter (fun r => decide (r.employee_id = e)))) = [] then 0
      else
        round2 (listMean
          ((pillarsWithScore b (c.filter (fun r => decide (r.employee_id = e)))).map
            (matchedPillarValue (c.filter (fun r => decide (r.employee_id = e)))))) := by
    show (if List.filterMap (pillarMatch (c.filter (fun r => decide (r.employee_id = e))))
        b.competencies = [] then (0 : ℚ) else _) = _
    rw [filterMap_pillarMatch]
    rfl
  rw [key]
  rcases eq_or_ne (pillarsWithScore b (c.filter (fun r => decide (r.employee_id = e)))) []
    with hc | hc
  · rw [hc]
    simp
  · rw [if_neg (fun h => hc (List.map_eq_nil_iff.mp h)), if_neg hc]

/- ## Lemmas: the psychometric sub-score -/

theorem psychContribs_sum (r : PsychRow) (b : Baseline) :
    (psychContribs r b).sum = psychWeightedSum r b := by
  unfold psychContribs psychWeightedSum psychContrib
  cases r.pauli <;> cases r.gtq <;> cases r.iq <;> simp [add_assoc]

/-- Closed form of the psychometric sub-score: the rounded weighted sum
over the first matching record, 0 when there is none. -/
theorem psych_score_eq (b : Baseline) (c : List CompRow) (p : List PsychRow) (e : ℕ) :
    (scoreEmployee b c p e).psychometric_score =
      ((p.filter (fun r => decide (r.employee_id = e))).head?).elim 0
        (fun r => round2 (psychWeightedSum r b)) := by
  show (if p = [] then (0 : ℚ) else _) = _
  rcases eq_or_ne p [] with hp | hp
  · subst hp
    rfl
  · rw [if_neg hp]
    cases hf : p.filter (fun r => decide (r.employee_id = e)) with
    | nil => rfl
    | cons r t =>
        show (if psychContribs r b = [] then (0 : ℚ) else round2 (psychContribs r b).sum) =
          round2 (psychWeightedSum r b)
        rcases eq_or_ne (psychContribs r b) [] with hcon | hcon
        · rw [if_pos hcon, ← psychContribs_sum, hcon]
          exact round2_zero.symm
        · rw [if_neg hcon, psychContribs_sum]

/- ## Lemmas: the descending sort -/

theorem sortDesc_perm (l : List MatchResult) : List.Perm (sortDesc l) l := by
  unfold sortDesc
  exact ((List.reverse_perm _).trans (List.perm_insertionSort _ _)).trans l.reverse_perm

theorem mem_scorer_results (b : Baseline) (perf : List PerfRow) (ct : List CompRow)
    (pt : List PsychRow) (y : ℤ) (r : MatchResult) :
    r ∈ (compute_match_scores_optimized b perf ct pt y).results ↔
      ∃ e ∈ (perf.filter (fun x => decide (x.year = y))).map (·.employee_id),
        r = scoreEmployee b (ct.filter (fun x => decide (x.year = y))) pt e := by
  rw [scorer_results_eq, (sortDesc_perm _).mem_iff, List.mem_map]
  constructor
  · rintro ⟨e, he, rfl⟩
    exact ⟨e, he, rfl⟩
  · rintro ⟨e, he, rfl⟩
    exact ⟨e, he, rfl⟩

theorem filter_filter_nil {α} (p q : α → Bool) (l : List α) (h : l.filter q = []) :
    (l.filter p).filter q = [] := by
  rw [List.filter_eq_nil_iff] at h ⊢
  intro a ha
  exact h a (List.mem_filter.mp ha).1

/- ## Lemmas: an employee with no data rows -/

theorem pillarsWithScore_nil (b : Baseline) : pillarsWithScore b [] = [] := by
  unfold pillarsWithScore
  simp

theorem scoreEmployee_absent (b : Baseline) (c : List CompRow) (p : List PsychRow) (e : ℕ)
    (hc : c.filter (fun r => decide (r.employee_id = e)) = [])
    (hp : p.filter (fun r => decide (r.employee_id = e)) = []) :
    (scoreEmployee b c p e).final_match_score = 18.75 := by
  have hcomp : (scoreEmployee b c p e).competency_score = 0 := by
    rw [competency_score_eq, hc, pillarsWithScore_nil]
    rw [if_pos rfl]
  have hpsych : (scoreEmployee b c p e).psychometric_score = 0 := by
    rw [psych_score_eq, hp]
    rfl
  rw [scoreEmployee_final, hcomp, hpsych]
  rw [show (0 : ℚ) * 0.50 + 0 * 0.25 + 75 * 0.20 + 75 * 0.05 = 75 / 4 by norm_num]
  rw [round2_eval (75 / 4) 1875 (by norm_num)]
  norm_num

/- ## Claim C4 -/

/-- C4: every result row has behavioral and contextual scores 75 and a
final score of `round2(comp * 0.50 + psych * 0.25 + 75 * 0.20 + 75 * 0.05)`
— the two constant terms contribute exactly 18.75 — and a roster employee
with neither competency nor psychometric rows scores exactly 18.75. -/
theorem final_score_formula (b : Baseline) (perf : List PerfRow) (ct : List CompRow)
    (pt : List PsychRow) (y : ℤ) :
    (∀ r ∈ (compute_match_scores_optimized b perf ct pt y).results,
        r.behavioral_score = 75 ∧ r.contextual_score = 75 ∧
        r.final_match_score = round2 (r.competency_score * 0.50 +
          r.psychometric_score * 0.25 + 75 * 0.20 + 75 * 0.05) ∧
        (75 : ℚ) * 0.20 + 75 * 0.05 = 18.75) ∧
    (∀ e ∈ (perf.filter (fun x => decide (x.year = y))).map (·.employee_id),
        ct.filter (fun x => decide (x.employee_id = e)) = [] →
        pt.filter (fun x => decide (x.employee_id = e)) = [] →
        ∃ r ∈ (compute_match_scores_optimized b perf ct pt y).results,
          r.employee_id = e ∧ r.final_match_score = 18.75) := by
  constructor
  · intro r hr
    obtain ⟨e, -, rfl⟩ := (mem_scorer_results b perf ct pt y r).mp hr
    exact ⟨rfl, rfl, scoreEmployee_final _ _ _ _, by norm_num⟩
  · intro e he hce hpe
    refine ⟨scoreEmployee b (ct.filter (fun x => decide (x.year = y))) pt e,
      (mem_scorer_results b perf ct pt y _).mpr ⟨e, he, rfl⟩, rfl, ?_⟩
    exact scoreEmployee_absent b _ pt e (filter_filter_nil _ _ ct hce) hpe

/-- Witness for C4: employee 7 is on the roster and absent from both data
tables; the scorer gives them exactly 18.75. -/
theorem final_score_formula_witness :
    ∃ r ∈ (compute_match_scores_optimized benchBaseline soloRoster [] [] 2025).results,
      r.employee_id = 7 ∧ r.final_match_score = 18.75 :=
  (final_score_formula benchBaseline soloRoster [] [] 2025).2 7 (by decide) rfl rfl

/- ## Lemmas: order of the descending sort -/

theorem sortDesc_sorted (l : List MatchResult) :
    List.Sorted (fun r s => s.final_match_score ≤ r.final_match_score) (sortDesc l) := by
  unfold sortDesc
  rw [List.Sorted, List.pairwise_reverse]
  exact List.sorted_insertionSort finalLe l.reverse

/- ## Lemmas: nonnegative standard deviations from the builder -/

theorem colStd2_nonneg (col : List (Option ℚ)) (s : ℚ) (h : colStd2 col = some s) : 0 ≤ s := by
  unfold colStd2 at h
  dsimp only at h
  split at h
  · cases h
  · rw [Option.some.injEq] at h
    rw [← h]
    exact round2sqrt_nonneg _

theorem builder_psych_stats (ids : List ℕ) (ct : List CompRow) (pt : List PsychRow)
    (b : Baseline) (h : compute_baseline_from_benchmarks ids ct pt = some b) :
    (b.pauliStats = ⟨some 0, some 1⟩ ∧ b.gtqStats = ⟨some 0, some 1⟩ ∧
        b.iqStats = ⟨some 0, some 1⟩) ∨
    (∃ pd : List PsychRow,
        b.pauliStats = ⟨colMean2 (pd.map (·.pauli)), colStd2 (pd.map (·.pauli))⟩ ∧
        b.gtqStats = ⟨colMean2 (pd.map (·.gtq)), colStd2 (pd.map (·.gtq))⟩ ∧
        b.iqStats = ⟨colMean2 (pd.map (·.iq)), colStd2 (pd.map (·.iq))⟩) := by
  unfold compute_baseline_from_benchmarks at h
  dsimp only at h
  split at h
  · exact absurd h (by simp)
  · split at h
    · rw [Option.some.injEq] at h
      subst h
      exact Or.inl ⟨rfl, rfl, rfl⟩
    · rw [Option.some.injEq] at h
      subst h
      exact Or.inr ⟨_, rfl, rfl, rfl⟩

theorem builder_nonnegStd (ids : List ℕ) (ct : List CompRow) (pt : List PsychRow)
    (b : Baseline) (h : compute_baseline_from_benchmarks ids ct pt = some b) :
    b.NonnegStd := by
  have hcomp : ∀ ps ∈ b.competencies, ∀ s, ps.2.std = some s → 0 ≤ s := by
    intro ps hps s hs
    rw [baseline_competencies_eq ids ct pt b h] at hps
    obtain ⟨a, -, heq⟩ := List.mem_map.mp hps
    rw [← heq] at hs
    unfold pillarStats at hs
    dsimp only at hs
    split at hs
    · cases hs
    · rw [Option.some.injEq] at hs
      rw [← hs]
      exact round2sqrt_nonneg _
  have hstats := builder_psych_stats ids ct pt b h
  refine ⟨hcomp, ?_, ?_, ?_⟩
  · intro s hs
    rcases hstats with ⟨hp, -, -⟩ | ⟨pd, hp, -, -⟩
    · rw [hp] at hs
      have hs1 : some (1 : ℚ) = some s := hs
      injection hs1 with h1
      rw [← h1]
      norm_num
    · rw [hp] at hs
      exact colStd2_nonneg _ s hs
  · intro s hs
    rcases hstats with ⟨-, hp, -⟩ | ⟨pd, -, hp, -⟩
    · rw [hp] at hs
      have hs1 : some (1 : ℚ) = some s := hs
      injection hs1 with h1
      rw [← h1]
      norm_num
    · rw [hp] at hs
      exact colStd2_nonneg _ s hs
  · intro s hs
    rcases hstats with ⟨-, -, hp⟩ | ⟨pd, -, -, hp⟩
    · rw [hp] at hs
      have hs1 : some (1 : ℚ) = some s := hs
      injection hs1 with h1
      rw [← h1]
      norm_num
    · rw [hp] at hs
      exact colStd2_nonneg _ s hs

/- ## Lemmas: bounds of the sub-scores -/

theorem comp_score_aux_bounds (L : List ℚ) (h : ∀ x ∈ L, 0 ≤ x ∧ x ≤ 100) :
    0 ≤ (if L = [] then (0 : ℚ) else round2 (listMean L)) ∧
      (if L = [] then (0 : ℚ) else round2 (listMean L)) ≤ 100 := by
  rcases eq_or_ne L [] with rfl | hne
  · norm_num
  · rw [if_neg hne]
    have h1 : listMean L ≤ 100 := listMean_le L 100 hne (fun x hx => (h x hx).2)
    have h0 : 0 ≤ listMean L := le_listMean L 0 hne (fun x hx => (h x hx).1)
    constructor
    · have := le_round2 0 (listMean L) (by push_cast; linarith)
      simpa using this
    · have := round2_le 10000 (listMean L) (by push_cast; linarith)
      rw [show ((10000 : ℤ) : ℚ) / 100 = 100 by norm_num] at this
      exact this

theorem pillarMatch_mem_bounds (b : Baseline) (ec : List CompRow)
    (hb : ∀ ps ∈ b.competencies, ∀ s, ps.2.std = some s → 0 ≤ s) :
    ∀ x ∈ b.competencies.filterMap (pillarMatch ec), 0 ≤ x ∧ x ≤ 100 := by
  intro x hx
  obtain ⟨ps, hps, hval⟩ := List.mem_filterMap.mp hx
  unfold pillarMatch at hval
  split at hval
  · cases hval
  · rw [Option.some.injEq] at hval
    rw [← hval]
    exact ⟨tv_match_nonneg _ _ _, tv_match_le_100 _ _ _ (hb ps hps)⟩

theorem scoreEmployee_comp_bounds (b : Baseline) (c : List CompRow) (p : List PsychRow) (e : ℕ)
    (hb : ∀ ps ∈ b.competencies, ∀ s, ps.2.std = some s → 0 ≤ s) :
    0 ≤ (scoreEmployee b c p e).competency_score ∧
      (scoreEmployee b c p e).competency_score ≤ 100 := by
  exact comp_score_aux_bounds
    (b.competencies.filterMap (pillarMatch (c.filter (fun r => decide (r.employee_id = e)))))
    (pillarMatch_mem_bounds b _ hb)

theorem psychWeightedSum_bounds (r : PsychRow) (b : Baseline)
    (h1 : ∀ s, b.pauliStats.std = some s → 0 ≤ s)
    (h2 : ∀ s, b.gtqStats.std = some s → 0 ≤ s)
    (h3 : ∀ s, b.iqStats.std = some s → 0 ≤ s) :
    0 ≤ psychWeightedSum r b ∧ psychWeightedSum r b ≤ 100 := by
  unfold psychWeightedSum
  have B1 : 0 ≤ r.pauli.elim 0
        (fun v => calculate_tv_match_vectorized v b.pauliStats.mean b.pauliStats.std * 0.60) ∧
      r.pauli.elim 0
        (fun v => calculate_tv_match_vectorized v b.pauliStats.mean b.pauliStats.std * 0.60) ≤
        60 := by
    cases r.pauli with
    | none => norm_num
    | some v =>
        have ht0 := tv_match_nonneg v b.pauliStats.mean b.pauliStats.std
        have ht1 := tv_match_le_100 v b.pauliStats.mean b.pauliStats.std h1
        constructor
        · show 0 ≤ calculate_tv_match_vectorized v _ _ * 0.60
          nlinarith
        · show calculate_tv_match_vectorized v _ _ * 0.60 ≤ 60
          nlinarith
  have B2 : 0 ≤ r.gtq.elim 0
        (fun v => calculate_tv_match_vectorized v b.gtqStats.mean b.gtqStats.std * 0.28) ∧
      r.gtq.elim 0
        (fun v => calculate_tv_match_vectorized v b.gtqStats.mean b.gtqStats.std * 0.28) ≤
        28 := by
    cases r.gtq with
    | none => norm_num
    | some v =>
        have ht0 := tv_match_nonneg v b.gtqStats.mean b.gtqStats.std
        have ht1 := tv_match_le_100 v b.gtqStats.mean b.gtqStats.std h2
        constructor
        · show 0 ≤ calculate_tv_match_vectorized v _ _ * 0.28
          nlinarith
        · show calculate_tv_match_vectorized v _ _ * 0.28 ≤ 28
          nlinarith
  have B3 : 0 ≤ r.iq.elim 0
        (fun v => calculate_tv_match_vectorized v b.iqStats.mean b.iqStats.std * 0.12) ∧
      r.iq.elim 0
        (fun v => calculate_tv_match_vectorized v b.iqStats.mean b.iqStats.std * 0.12) ≤
        12 := by
    cases r.iq with
    | none => norm_num
    | some v =>
        have ht0 := tv_match_nonneg v b.iqStats.mean b.iqStats.std
        have ht1 := tv_match_le_100 v b.iqStats.mean b.iqStats.std h3
        constructor
        · show 0 ≤ calculate_tv_match_vectorized v _ _ * 0.12
          nlinarith
        · show calculate_tv_match_vectorized v _ _ * 0.12 ≤ 12
          nlinarith
  constructor
  · linarith [B1.1, B2.1, B3.1]
  · linarith [B1.2, B2.2, B3.2]

theorem scoreEmployee_psych_bounds (b : Baseline) (c : List CompRow) (p : List PsychRow) (e : ℕ)
    (h1 : ∀ s, b.pauliStats.std = some s → 0 ≤ s)
    (h2 : ∀ s, b.gtqStats.std = some s → 0 ≤ s)
    (h3 : ∀ s, b.iqStats.std = some s → 0 ≤ s) :
    0 ≤ (scoreEmployee b c p e).psychometric_score ∧
      (scoreEmployee b c p e).psychometric_score ≤ 100 := by
  rw [psych_score_eq]
  cases (p.filter (fun r => decide (r.employee_id = e))).head? with
  | none => norm_num
  | some r =>
      show 0 ≤ round2 (psychWeightedSum r b) ∧ round2 (psychWeightedSum r b) ≤ 100
      obtain ⟨hw0, hw1⟩ := psychWeightedSum_bounds r b h1 h2 h3
      constructor
      · have := le_round2 0 (psychWeightedSum r b) (by push_cast; linarith)
        simpa using this
      · have := round2_le 10000 (psychWeightedSum r b) (by push_cast; linarith)
        rw [show ((10000 : ℤ) : ℚ) / 100 = 100 by norm_num] at this
        exact this

/- ## Claim C10 -/

/-- C10: every result row produced by the scorer from a builder-produced
baseline has behavioral and contextual scores 75, competency and
psychometric scores in [0, 100], and hence a final match score in
[18.75, 93.75]. -/
theorem match_result_bounds (ids : List ℕ) (ct0 : List CompRow) (pt0 : List PsychRow)
    (b : Baseline) (perf : List PerfRow) (ct : List CompRow) (pt : List PsychRow) (y : ℤ)
    (r : MatchResult) (hb : compute_baseline_from_benchmarks ids ct0 pt0 = some b)
    (hr : r ∈ (compute_match_scores_optimized b perf ct pt y).results) :
    r.behavioral_score = 75 ∧ r.contextual_score = 75 ∧
    0 ≤ r.competency_score ∧ r.competency_score ≤ 100 ∧
    0 ≤ r.psychometric_score ∧ r.psychometric_score ≤ 100 ∧
    18.75 ≤ r.final_match_score ∧ r.final_match_score ≤ 93.75 := by
  obtain ⟨hcomp, hp1, hp2, hp3⟩ := builder_nonnegStd ids ct0 pt0 b hb
  obtain ⟨e, -, rfl⟩ := (mem_scorer_results b perf ct pt y r).mp hr
  obtain ⟨hc0, hc1⟩ := scoreEmployee_comp_bounds b _ pt e hcomp
  obtain ⟨hq0, hq1⟩ := scoreEmployee_psych_bounds b _ pt e hp1 hp2 hp3
  refine ⟨rfl, rfl, hc0, hc1, hq0, hq1, ?_, ?_⟩
  · rw [scoreEmployee_final]
    have := le_round2 1875
      ((scoreEmployee b (ct.filter (fun x => decide (x.year = y))) pt e).competency_score * 0.50 +
        (scoreEmployee b (ct.filter (fun x => decide (x.year = y))) pt e).psychometric_score *
          0.25 + 75 * 0.20 + 75 * 0.05)
      (by push_cast; linarith)
    rw [show ((1875 : ℤ) : ℚ) / 100 = 18.75 by norm_num] at this
    exact this
  · rw [scoreEmployee_final]
    have := round2_le 9375
      ((scoreEmployee b (ct.filter (fun x => decide (x.year = y))) pt e).competency_score * 0.50 +
        (scoreEmployee b (ct.filter (fun x => decide (x.year = y))) pt e).psychometric_score *
          0.25 + 75 * 0.20 + 75 * 0.05)
      (by push_cast; linarith)
    rw [show ((9375 : ℤ) : ℚ) / 100 = 93.75 by norm_num] at this
    exact this

/- ## Concrete evaluation of the scorer on the solo roster -/

theorem scoreEmployee_solo : scoreEmployee benchBaseline [] [] 7 = soloResult := by
  unfold soloResult
  rw [show (75 : ℚ) / 4 =
      round2 ((0 : ℚ) * 0.50 + 0 * 0.25 + 75 * 0.20 + 75 * 0.05) from by
    rw [show (0 : ℚ) * 0.50 + 0 * 0.25 + 75 * 0.20 + 75 * 0.05 = 75 / 4 by norm_num,
        round2_eval (75 / 4) 1875 (by norm_num)]
    norm_num]
  rfl

theorem soloScorer_eval :
    compute_match_scores_optimized benchBaseline soloRoster [] [] 2025 =
      { error := none, results := [soloResult] } := by
  rw [← scoreEmployee_solo]
  rfl

/-- Witness for C10: the result row of roster employee 7, scored against
the worked-example baseline, satisfies all the bounds (its final score is
exactly the lower endpoint 18.75). -/
theorem match_result_bounds_witness :
    soloResult.behavioral_score = 75 ∧ soloResult.contextual_score = 75 ∧
    0 ≤ soloResult.competency_score ∧ soloResult.competency_score ≤ 100 ∧
    0 ≤ soloResult.psychometric_score ∧ soloResult.psychometric_score ≤ 100 ∧
    18.75 ≤ soloResult.final_match_score ∧ soloResult.final_match_score ≤ 93.75 :=
  match_result_bounds [1, 2] benchCompTable [] benchBaseline soloRoster [] [] 2025 soloResult
    benchBaseline_eval (by rw [soloScorer_eval]; exact List.mem_cons_self _ _)

/- ## Certification: the rounded square root against the real square root -/

theorem isqrt_floor_sq_le (m : ℚ) (hm : 0 ≤ m) :
    ((isqrt (Int.toNat ⌊m⌋) : ℚ)) ^ 2 ≤ m := by
  rw [isqrt_eq_sqrt]
  have h1 : (Nat.sqrt (Int.toNat ⌊m⌋)) ^ 2 ≤ Int.toNat ⌊m⌋ := Nat.sqrt_le' _
  have h2 : ((Int.toNat ⌊m⌋ : ℚ)) ≤ m := by
    have hfl : (Int.toNat ⌊m⌋ : ℤ) = ⌊m⌋ := Int.toNat_of_nonneg (Int.floor_nonneg.mpr hm)
    have h3 := Int.floor_le m
    rw [← hfl] at h3
    exact_mod_cast h3
  have h1q : ((Nat.sqrt (Int.toNat ⌊m⌋) : ℚ)) ^ 2 ≤ ((Int.toNat ⌊m⌋ : ℚ)) := by
    exact_mod_cast h1
  linarith

theorem lt_isqrt_succ_sq (m : ℚ) (hm : 0 ≤ m) :
    m < ((isqrt (Int.toNat ⌊m⌋) : ℚ) + 1) ^ 2 := by
  rw [isqrt_eq_sqrt]
  have h1 : Int.toNat ⌊m⌋ < (Nat.sqrt (Int.toNat ⌊m⌋) + 1) ^ 2 := by
    simpa [Nat.succ_eq_add_one] using Nat.lt_succ_sqrt' (Int.toNat ⌊m⌋)
  have h2 : m < ((Int.toNat ⌊m⌋ : ℚ)) + 1 := by
    have hfl : (Int.toNat ⌊m⌋ : ℤ) = ⌊m⌋ := Int.toNat_of_nonneg (Int.floor_nonneg.mpr hm)
    have h3 := Int.lt_floor_add_one m
    rw [← hfl] at h3
    exact_mod_cast h3
  have h1q : ((Int.toNat ⌊m⌋ : ℚ)) + 1 ≤ ((Nat.sqrt (Int.toNat ⌊m⌋) : ℚ) + 1) ^ 2 := by
    exact_mod_cast Nat.succ_le_of_lt h1
  linarith

theorem sqrt_isqrt_bounds (m : ℚ) (hm : 0 ≤ m) :
    ((isqrt (Int.toNat ⌊m⌋) : ℝ)) ≤ Real.sqrt (m : ℝ) ∧
      Real.sqrt (m : ℝ) < (isqrt (Int.toNat ⌊m⌋) : ℝ) + 1 := by
  have hle := isqrt_floor_sq_le m hm
  have hlt := lt_isqrt_succ_sq m hm
  constructor
  · apply (Real.le_sqrt (by positivity) (by exact_mod_cast hm)).mpr
    exact_mod_cast hle
  · apply (Real.sqrt_lt' (by positivity)).mpr
    exact_mod_cast hlt

/-- The value computed by `roundSqrt` is within one half of the true real
square root: it is a nearest-integer rounding of `sqrt m`, which certifies
that `round2sqrt` below encodes `round(sqrt(v), 2)` faithfully. -/
theorem roundSqrt_dist (m : ℚ) (hm : 0 ≤ m) :
    |Real.sqrt (m : ℝ) - (roundSqrt m : ℝ)| ≤ 1 / 2 := by
  obtain ⟨hsl, hsu⟩ := sqrt_isqrt_bounds m hm
  unfold roundSqrt
  dsimp only
  split
  · next hc =>
      have hr : (4 : ℝ) * (m : ℝ) < 4 * ((isqrt (Int.toNat ⌊m⌋) : ℝ)) ^ 2 +
          4 * ((isqrt (Int.toNat ⌊m⌋) : ℝ)) + 1 := by exact_mod_cast hc
      have hcr : (m : ℝ) < (((isqrt (Int.toNat ⌊m⌋) : ℝ)) + 1 / 2) ^ 2 := by nlinarith
      have h2 : Real.sqrt (m : ℝ) < ((isqrt (Int.toNat ⌊m⌋) : ℝ)) + 1 / 2 :=
        (Real.sqrt_lt' (by positivity)).mpr hcr
      rw [abs_le]
      constructor
      · push_cast
        linarith
      · push_cast
        linarith
  · next hc2 =>
      split
      · next hc =>
          have hr : (4 : ℝ) * ((isqrt (Int.toNat ⌊m⌋) : ℝ)) ^ 2 +
              4 * ((isqrt (Int.toNat ⌊m⌋) : ℝ)) + 1 < 4 * (m : ℝ) := by exact_mod_cast hc
          have hcr : ((((isqrt (Int.toNat ⌊m⌋) : ℝ)) + 1 / 2)) ^ 2 < (m : ℝ) := by nlinarith
          have h2 : ((isqrt (Int.toNat ⌊m⌋) : ℝ)) + 1 / 2 < Real.sqrt (m : ℝ) :=
            (Real.lt_sqrt (by positivity)).mpr hcr
          rw [abs_le]
          constructor
          · push_cast
            linarith
          · push_cast
            linarith
      · next hc =>
          have h4 : (4 : ℚ) * ((isqrt (Int.toNat ⌊m⌋) : ℚ)) ^ 2 +
              4 * ((isqrt (Int.toNat ⌊m⌋) : ℚ)) + 1 = 4 * m := by
            have ha : ¬(4 * m < 4 * (((isqrt (Int.toNat ⌊m⌋) : ℤ) : ℚ)) ^ 2 +
                4 * (((isqrt (Int.toNat ⌊m⌋) : ℤ) : ℚ)) + 1) := hc2
            have hb : ¬(4 * (((isqrt (Int.toNat ⌊m⌋) : ℤ) : ℚ)) ^ 2 +
                4 * (((isqrt (Int.toNat ⌊m⌋) : ℤ) : ℚ)) + 1 < 4 * m) := hc
            have := le_antisymm (not_lt.mp ha) (not_lt.mp hb)
            push_cast at this ⊢
            linarith
          have hr : (4 : ℝ) * ((isqrt (Int.toNat ⌊m⌋) : ℝ)) ^ 2 +
              4 * ((isqrt (Int.toNat ⌊m⌋) : ℝ)) + 1 = 4 * (m : ℝ) := by exact_mod_cast h4
          have heq : (m : ℝ) = (((isqrt (Int.toNat ⌊m⌋) : ℝ)) + 1 / 2) ^ 2 := by
            linear_combination -hr / 4
          have hs : Real.sqrt (m : ℝ) = ((isqrt (Int.toNat ⌊m⌋) : ℝ)) + 1 / 2 := by
            rw [heq, Real.sqrt_sq (by positivity)]
          split
          · rw [abs_le]
            constructor
            · push_cast
              rw [hs]
              linarith
            · push_cast
              rw [hs]
              linarith
          · rw [abs_le]
            constructor
            · push_cast
              rw [hs]
              linarith
            · push_cast
              rw [hs]
              linarith

/-- The value stored for a standard deviation, `round2sqrt v`, is within
`1/200` of the true real square root of the variance: exactly the accuracy
of rounding a square root to two decimal places. -/
theorem round2sqrt_dist (v : ℚ) (hv : 0 ≤ v) :
    |Real.sqrt (v : ℝ) - (round2sqrt v : ℝ)| ≤ 1 / 200 := by
  have h := roundSqrt_dist (10000 * v) (by positivity)
  unfold round2sqrt
  have hs : Real.sqrt ((10000 * v : ℚ) : ℝ) = 100 * Real.sqrt (v : ℝ) := by
    push_cast
    rw [show (10000 : ℝ) * (v : ℝ) = 100 ^ 2 * (v : ℝ) by norm_num,
      Real.sqrt_mul (by positivity), Real.sqrt_sq (by norm_num)]
  rw [hs] at h
  have habs : |Real.sqrt (v : ℝ) - ((roundSqrt (10000 * v) : ℚ) : ℝ) / 100| =
      |100 * Real.sqrt (v : ℝ) - (roundSqrt (10000 * v) : ℝ)| / 100 := by
    rw [show Real.sqrt (v : ℝ) - ((roundSqrt (10000 * v) : ℚ) : ℝ) / 100 =
        (100 * Real.sqrt (v : ℝ) - (roundSqrt (10000 * v) : ℝ)) / 100 by push_cast; ring]
    rw [abs_div]
    norm_num
  push_cast
  push_cast at habs
  rw [habs]
  linarith

/- ## Claims C5 and C6 -/

/-- C5: the competency sub-score is the unweighted mean, rounded to two
decimals, of the transform values over exactly those baseline pillars for
which the employee has a row; pillars the employee lacks are excluded from
the average (they do not contribute zeros), and with no matching pillar at
all the sub-score is 0. -/
theorem competency_score_mean_of_matched (b : Baseline) (c : List CompRow)
    (p : List PsychRow) (e : ℕ) :
    (scoreEmployee b c p e).competency_score =
      if pillarsWithScore b (c.filter (fun r => decide (r.employee_id = e))) = [] then 0
      else
        round2 (listMean
          ((pillarsWithScore b (c.filter (fun r => decide (r.employee_id = e)))).map
            (matchedPillarValue (c.filter (fun r => decide (r.employee_id = e)))))) :=
  competency_score_eq b c p e

/-- C6: for an employee with a psychometric record, the psychometric
sub-score is the rounded sum of the transform values of pauli, gtq and iq
weighted 0.60, 0.28 and 0.12 (a NaN dimension contributes nothing and the
weights are not renormalized); with no record the sub-score is 0. -/
theorem psych_score_weighted_sum (b : Baseline) (c : List CompRow) (p : List PsychRow) (e : ℕ) :
    (scoreEmployee b c p e).psychometric_score =
      ((p.filter (fun r => decide (r.employee_id = e))).head?).elim 0
        (fun r => round2 (psychWeightedSum r b)) :=
  psych_score_eq b c p e
